import Mathlib

/-!
Shallow embedding of `src/milightrgbw.py`: the `MiLightRGBW` class, its
command table, packet builder (`build_command`), sender (`send_command`)
and convenience entry point (`simple`).

Modelling conventions:
* Python ints are `Int`; packet bytes are `Nat` (each checked to be in
  0..255 by `struct.pack`, which raises `struct.error` for out-of-range
  fields rather than truncating).
* Fallible Python code is modelled with explicit error values: a call
  that raises is an `Except`-style `some PyError` outcome.  `KeyError`
  comes from the dict lookup `self.commands[command]`, `ValueError` from
  `int(value)` on a non-numeric string, `struct.error` from `struct.pack`,
  and `socket.error` from a failing `sendto` call.
* Real time is modelled by a millisecond clock in a `Trace`: `sendto`
  records a datagram stamped with the current clock, `time.sleep(0.1)`
  advances the clock by 100.  Whether the OS-level `sendto` call raises
  is an explicit boolean input, since the source does not control it.
-/

namespace MiLight

/-- A Python value passed as the `value` argument of `build_command`:
the source's test harness passes both ints and decimal strings. -/
inductive PyValue where
  | int (n : Int)
  | str (s : String)
deriving DecidableEq

/-- The Python exceptions the embedded code can raise: `KeyError` from the
dict lookup, `ValueError` from `int()` on a bad string, `struct.error`
from `struct.pack` range checking, `socket.error` from `sendto`. -/
inductive PyError where
  | keyError
  | valueError
  | structError
  | socketError
deriving DecidableEq

/-- The class attribute `commands` (src lines 67-88), as the list of the
dict's entries in source order. -/
def commandPairs : List (String × Nat) :=
  [("all_off", 65), ("all_on", 66), ("disco_slower", 67), ("disco_faster", 68),
   ("group1_on", 69), ("group1_off", 70), ("group2_on", 71), ("group2_off", 72),
   ("group3_on", 73), ("group3_off", 74), ("group4_on", 75), ("group4_off", 76),
   ("disco", 77), ("all_white", 194), ("group1_white", 197), ("group2_white", 199),
   ("group3_white", 201), ("group4_white", 203), ("brightness", 78), ("rgb", 64)]

/-- Dictionary lookup `self.commands[command]`: the value of the entry
whose key is `command`, `none` when the key is absent (Python raises
`KeyError` there). -/
def commandsTable (command : String) : Option Nat :=
  (commandPairs.find? (fun p => p.1 == command)).map (fun p => p.2)

/-- Class attribute `suffix = 85` (src line 64): the fixed terminator
byte 0x55 every packet ends with. -/
def suffix : Nat := 85

/-- The per-instance state set by `__init__` (src lines 90-95): the bridge
endpoint.  The socket itself carries no state the embedding needs; the
command table and terminator are class-level constants, never assigned. -/
structure Client where
  bridge_address : String
  bridge_port : Nat
deriving DecidableEq

/-- `__init__(self, bridge_address="255.255.255.255", bridge_port=8899)`. -/
def init (bridge_address : String := "255.255.255.255")
    (bridge_port : Nat := 8899) : Client :=
  { bridge_address := bridge_address, bridge_port := bridge_port }

/-- A concrete client built with the source's default endpoint. -/
def defaultClient : Client := init

/-- The value of a decimal digit character, `none` for any other character. -/
def digitVal (ch : Char) : Option Nat :=
  if '0' ≤ ch ∧ ch ≤ '9' then some (ch.toNat - 48) else none

/-- A non-empty all-digit character list read as a base-10 number;
`none` as soon as the list is empty or holds a non-digit. -/
def parseDigits : List Char → Option Nat
  | [] => none
  | l => l.foldl (fun acc ch =>
      match acc, digitVal ch with
      | some a, some d => some (a * 10 + d)
      | _, _ => none) (some 0)

/-- Python `int(s)` on a string: an optional sign followed by decimal
digits; anything else raises `ValueError` (`none` here).  This models
`int()` on the strings the bundled harness produces with `split(':')`;
the leading/trailing whitespace and underscores Python would also accept
never occur there. -/
def pyParseInt (s : String) : Option Int :=
  match s.data with
  | '-' :: l => (parseDigits l).map (fun n => -(n : Int))
  | '+' :: l => (parseDigits l).map (fun n => (n : Int))
  | l => (parseDigits l).map (fun n => (n : Int))

/-- Python `int(value)`: an int is returned unchanged; a string goes
through decimal parsing. -/
def pyInt : PyValue → Option Int
  | .int n => some n
  | .str s => pyParseInt s

/-- `build_command(self, command, value=0)` (src lines 97-101):
`struct.pack("!BBB", self.commands[command], int(value), self.suffix)`.
Python evaluates the arguments left to right: the dict lookup first
(`KeyError` for an unknown name), then `int(value)` (`ValueError` for a
non-numeric string); `struct.pack` then packs the three fields in order,
raising `struct.error` at the first field outside 0..255 — it does not
truncate.  The client parameter is unused because the method only reads
class-level constants besides its arguments. -/
def build_command (_self : Client) (command : String)
    (value : PyValue := .int 0) : Except PyError (List Nat) :=
  match commandsTable command with
  | none => .error .keyError
  | some opcode =>
    match pyInt value with
    | none => .error .valueError
    | some n =>
      if opcode ≤ 255 then
        if 0 ≤ n ∧ n ≤ 255 then
          if suffix ≤ 255 then .ok [opcode, n.toNat, suffix]
          else .error .structError
        else .error .structError
      else .error .structError

/-- The observable effects of a run: a millisecond clock (advanced only by
`time.sleep`) and the datagrams sent so far, each stamped with the clock
value at which `sendto` ran, together with its bytes and destination. -/
structure Trace where
  now : Nat
  datagrams : List (Nat × List Nat × String × Nat)
deriving DecidableEq

/-- `send_command(self, cmd)` (src lines 103-106): one `sendto` of `cmd`
to `(bridge_address, bridge_port)` followed by `time.sleep(0.1)`.
`sendtoOk` says whether the OS-level `sendto` call succeeds; when it
raises (`false`), the exception propagates and the sleep is skipped, so
the clock does not advance.  The debug log line has no modelled effect. -/
def send_command (self : Client) (cmd : List Nat) (sendtoOk : Bool)
    (t : Trace) : Trace × Option PyError :=
  if sendtoOk then
    ({ now := t.now + 100,
       datagrams :=
         t.datagrams ++ [(t.now, cmd, self.bridge_address, self.bridge_port)] },
     none)
  else (t, some .socketError)

/-- `simple(self, command, value=0)` (src lines 108-109):
`self.send_command(self.build_command(command, value))`.  The builder's
exception, if any, propagates before `send_command` runs. -/
def simple (self : Client) (command : String) (value : PyValue := .int 0)
    (sendtoOk : Bool := true) (t : Trace) : Trace × Option PyError :=
  match build_command self command value with
  | .error e => (t, some e)
  | .ok cmd => send_command self cmd sendtoOk t

/-- A caller issuing `simple` calls strictly in sequence (as the bundled
test harness does): each entry is a command name, a value and whether its
`sendto` succeeds; an exception aborts the remainder.  Returns the client
(threaded through, since no method assigns to it), the final trace and
the propagated exception, if any. -/
def runSimples (self : Client) :
    List (String × PyValue × Bool) → Trace → Client × Trace × Option PyError
  | [], t => (self, t, none)
  | op :: ops, t =>
    match simple self op.1 op.2.1 op.2.2 t with
    | (t1, none) => runSimples self ops t1
    | (t1, some e) => (self, t1, some e)

/-- Decoding step of the spec's round-trip property: split a 3-byte packet
into (opcode, value, terminator); any other shape fails. -/
def decodePacket : List Nat → Option (Nat × Nat × Nat)
  | [a, b, c] => some (a, b, c)
  | _ => none

/-- Map an opcode back to its command name: the first table entry carrying
that opcode (unambiguous because opcodes are pairwise distinct). -/
def nameForOpcode (opcode : Nat) : Option String :=
  (commandPairs.find? (fun p => p.2 == opcode)).map (fun p => p.1)

/-- The spec's description of `sendSimple`: the composition of the packet
builder and the sender, the builder's failure propagating. -/
def composeBuildSend (self : Client) (command : String) (value : PyValue)
    (sendtoOk : Bool) (t : Trace) : Trace × Option PyError :=
  match build_command self command value with
  | .ok packet => send_command self packet sendtoOk t
  | .error e => (t, some e)

/-- The clock values at which a run of `n` back-to-back successful sends
stamps its datagrams, the first at clock `s`, each next one 100 later. -/
def paceTimes (s : Nat) : Nat → List Nat
  | 0 => []
  | n + 1 => s :: paceTimes (s + 100) n

lemma mem_of_commandsTable {name : String} {op : Nat}
    (h : commandsTable name = some op) : (name, op) ∈ commandPairs := by
  unfold commandsTable at h
  rw [Option.map_eq_some'] at h
  obtain ⟨pr, hf, hsnd⟩ := h
  have hm := List.mem_of_find?_eq_some hf
  have hp := List.find?_some hf
  cases pr with
  | mk a b =>
    simp only [beq_iff_eq] at hp
    subst hp
    subst hsnd
    exact hm

lemma commandsTable_of_mem {name : String} {op : Nat}
    (h : (name, op) ∈ commandPairs) : commandsTable name = some op := by
  have hall : ∀ p ∈ commandPairs, commandsTable p.1 = some p.2 := by decide
  exact hall (name, op) h

lemma opcode_le_255 {name : String} {op : Nat}
    (h : commandsTable name = some op) : op ≤ 255 := by
  have hm := mem_of_commandsTable h
  have hall : ∀ x ∈ commandPairs.map Prod.snd, x ≤ 255 := by decide
  exact hall op (List.mem_map_of_mem Prod.snd hm)

lemma nameForOpcode_of_table {name : String} {op : Nat}
    (h : commandsTable name = some op) : nameForOpcode op = some name := by
  have hm := mem_of_commandsTable h
  have hall : ∀ p ∈ commandPairs, nameForOpcode p.2 = some p.1 := by decide
  exact hall (name, op) hm

lemma build_ok {c : Client} {name : String} {op : Nat} {v : Int}
    (h : commandsTable name = some op) (h0 : 0 ≤ v) (h1 : v ≤ 255) :
    build_command c name (.int v) = .ok [op, v.toNat, 85] := by
  have hop := opcode_le_255 h
  simp only [build_command, h, pyInt]
  rw [if_pos hop, if_pos ⟨h0, h1⟩, if_pos (by decide : suffix ≤ 255)]
  rfl

lemma build_out_of_range {c : Client} {name : String} {op : Nat} {v : Int}
    (h : commandsTable name = some op) (hout : v < 0 ∨ 255 < v) :
    build_command c name (.int v) = .error .structError := by
  have hop := opcode_le_255 h
  simp only [build_command, h, pyInt]
  rw [if_pos hop, if_neg (by omega : ¬(0 ≤ v ∧ v ≤ 255))]

lemma opcodes_nodup : (commandPairs.map Prod.snd).Nodup := by decide

lemma paceTimes_chain (s n : Nat) :
    List.Chain' (fun a b => a + 100 ≤ b) (paceTimes s n) := by
  induction n generalizing s with
  | zero => simp [paceTimes]
  | succ n ih =>
    cases n with
    | zero => simp [paceTimes]
    | succ m =>
      rw [paceTimes, paceTimes, List.chain'_cons]
      exact ⟨by omega, by rw [show ((s + 100) :: paceTimes (s + 100 + 100) m) =
        paceTimes (s + 100) (m + 1) from rfl]; exact ih (s + 100)⟩

/-- C1: for every command name in the table and every value v with
0 ≤ v ≤ 255, `build_command` returns a 3-byte packet: the table's opcode
for the name, then v mod 256, then the terminator 85 (0x55). -/
theorem c1_build_in_range (c : Client) (name : String) (op : Nat) (v : Int)
    (h : commandsTable name = some op) (h0 : 0 ≤ v) (h1 : v ≤ 255) :
    build_command c name (.int v) = .ok [op, (v % 256).toNat, 85] := by
  have hv : v % 256 = v := by omega
  rw [hv]
  exact build_ok h h0 h1

/-- C1 witness: the theorem at name "rgb" (opcode 64) and value 160. -/
theorem c1_build_in_range_witness :
    commandsTable "rgb" = some 64 ∧ (0 : Int) ≤ 160 ∧ (160 : Int) ≤ 255 ∧
    build_command defaultClient "rgb" (.int 160) =
      .ok [64, ((160 : Int) % 256).toNat, 85] :=
  ⟨rfl, by decide, by decide,
    c1_build_in_range defaultClient "rgb" 64 160 rfl (by decide) (by decide)⟩

/-- C2: the command table holds exactly the twenty listed name-to-opcode
entries, and in particular `build("all_on")` = [66, 0, 85],
`build("rgb", 160)` = [64, 160, 85], `build("brightness", 27)` = [78, 27, 85]. -/
theorem c2_command_table :
    (∀ name op, commandsTable name = some op ↔ (name, op) ∈ commandPairs) ∧
    build_command defaultClient "all_on" (.int 0) = .ok [66, 0, 85] ∧
    build_command defaultClient "rgb" (.int 160) = .ok [64, 160, 85] ∧
    build_command defaultClient "brightness" (.int 27) = .ok [78, 27, 85] :=
  ⟨fun _ _ => ⟨mem_of_commandsTable, commandsTable_of_mem⟩, rfl, rfl, rfl⟩

/-- C2 witness: the table characterization at the entry ("all_off", 65). -/
theorem c2_command_table_witness :
    commandsTable "all_off" = some 65 ↔ ("all_off", 65) ∈ commandPairs :=
  c2_command_table.1 "all_off" 65

/-- C3 counterexample: `build("rgb", 256)` does not return a packet with
second byte 256 mod 256 = 0; `struct.pack` rejects the out-of-range value
with `struct.error` instead of truncating it. -/
theorem c3_counterexample_rgb_256 :
    build_command defaultClient "rgb" (.int 256) = .error .structError := rfl

/-- C3 (amended): for a known command name, values 0..255 are packed as
the second byte unchanged, and any value outside 0..255 is rejected with
`struct.error` — it is never truncated mod 256. -/
theorem c3_value_range_checked (c : Client) (name : String) (op : Nat) (v : Int)
    (h : commandsTable name = some op) :
    (0 ≤ v ∧ v ≤ 255 → build_command c name (.int v) = .ok [op, v.toNat, 85]) ∧
    (v < 0 ∨ 255 < v → build_command c name (.int v) = .error .structError) :=
  ⟨fun hin => build_ok h hin.1 hin.2, fun hout => build_out_of_range h hout⟩

/-- C3 witness: the amended theorem at name "rgb" with the in-range value
160 and the out-of-range value 300. -/
theorem c3_value_range_checked_witness :
    commandsTable "rgb" = some 64 ∧
    build_command defaultClient "rgb" (.int 160) =
      .ok [64, (160 : Int).toNat, 85] ∧
    build_command defaultClient "rgb" (.int 300) = .error .structError :=
  ⟨rfl,
    (c3_value_range_checked defaultClient "rgb" 64 160 rfl).1 (by decide),
    (c3_value_range_checked defaultClient "rgb" 64 300 rfl).2 (by decide)⟩

/-- C4: `build_command` fails with the dict lookup's `KeyError` (the
UnknownCommand condition) exactly when the name is absent from the
command table; for a known name it never raises that condition. -/
theorem c4_unknown_command_iff (c : Client) (name : String) (v : PyValue) :
    build_command c name v = .error .keyError ↔ commandsTable name = none := by
  cases htab : commandsTable name with
  | none => simp [build_command, htab]
  | some op =>
    cases hv : pyInt v with
    | none => simp [build_command, htab, hv]
    | some n =>
      simp only [build_command, htab, hv]
      constructor
      · intro hcontra
        split_ifs at hcontra <;> simp_all
      · intro hnone
        simp at hnone

/-- C4 witness: the characterization at the unknown name of the spec's
test property and at the known name "all_on". -/
theorem c4_unknown_command_iff_witness :
    (build_command defaultClient "unknown_command_xyz" (.int 0) =
        .error .keyError ↔ commandsTable "unknown_command_xyz" = none) ∧
    (build_command defaultClient "all_on" (.int 0) = .error .keyError ↔
        commandsTable "all_on" = none) :=
  ⟨c4_unknown_command_iff defaultClient "unknown_command_xyz" (.int 0),
   c4_unknown_command_iff defaultClient "all_on" (.int 0)⟩

/-- C5 counterexample: when the `sendto` call itself fails, the exception
propagates before `time.sleep(0.1)` runs — the clock does not advance by
the 100 ms pacing interval, contradicting "suspends the caller ...
regardless of whether the transmission itself succeeded or failed". -/
theorem c5_counterexample_failed_send :
    send_command defaultClient [66, 0, 85] false { now := 0, datagrams := [] } =
      ({ now := 0, datagrams := [] }, some PyError.socketError) := rfl

/-- C5 (amended): every successful send transmits exactly one datagram and
then advances the clock by the fixed 100 ms pacing delay before
returning, so a sequence of N sendSimple calls whose builds and sends all
succeed issues exactly N datagrams, stamped 100 ms apart (each
consecutive pair separated by at least the pacing interval).  When the
`sendto` call itself fails, the exception propagates without the delay. -/
theorem c5_pacing (c : Client) (ops : List (String × PyValue × Bool)) (t : Trace)
    (h : ∀ op ∈ ops, op.2.2 = true ∧ ∃ p, build_command c op.1 op.2.1 = .ok p) :
    (runSimples c ops t).2.2 = none ∧
    (runSimples c ops t).2.1.now = t.now + 100 * ops.length ∧
    (runSimples c ops t).2.1.datagrams.length =
      t.datagrams.length + ops.length ∧
    (runSimples c ops t).2.1.datagrams.map Prod.fst =
      t.datagrams.map Prod.fst ++ paceTimes t.now ops.length ∧
    List.Chain' (fun a b => a + 100 ≤ b) (paceTimes t.now ops.length) := by
  induction ops generalizing t with
  | nil => simp [runSimples, paceTimes]
  | cons op ops ih =>
    obtain ⟨hok, p, hp⟩ := h op (List.mem_cons_self op ops)
    have hrest : ∀ o ∈ ops, o.2.2 = true ∧ ∃ q, build_command c o.1 o.2.1 = .ok q :=
      fun o ho => h o (List.mem_cons_of_mem op ho)
    have hsimple : simple c op.1 op.2.1 op.2.2 t =
        ({ now := t.now + 100,
           datagrams :=
             t.datagrams ++ [(t.now, p, c.bridge_address, c.bridge_port)] },
         none) := by
      simp [simple, hp, hok, send_command]
    have hstep : runSimples c (op :: ops) t = runSimples c ops
        { now := t.now + 100,
          datagrams :=
            t.datagrams ++ [(t.now, p, c.bridge_address, c.bridge_port)] } := by
      simp only [runSimples, hsimple]
    obtain ⟨e1, e2, e3, e4, e5⟩ := ih
      { now := t.now + 100,
        datagrams :=
          t.datagrams ++ [(t.now, p, c.bridge_address, c.bridge_port)] } hrest
    rw [hstep]
    refine ⟨e1, ?_, ?_, ?_, ?_⟩
    · rw [e2]
      simp
      omega
    · rw [e3]
      simp
      omega
    · rw [e4]
      simp only [List.map_append, List.length_cons, paceTimes, List.map_cons,
        List.map_nil, List.append_assoc, List.singleton_append]
    · simp only [List.length_cons, paceTimes]
      exact paceTimes_chain t.now (ops.length + 1)

/-- C5 witness: the pacing theorem for the two-command sequence all_on
then rgb 160, started from the empty trace at clock 0. -/
theorem c5_pacing_witness :
    (runSimples defaultClient
        [("all_on", PyValue.int 0, true), ("rgb", PyValue.int 160, true)]
        { now := 0, datagrams := [] }).2.2 = none ∧
    (runSimples defaultClient
        [("all_on", PyValue.int 0, true), ("rgb", PyValue.int 160, true)]
        { now := 0, datagrams := [] }).2.1.now = 0 + 100 * 2 ∧
    (runSimples defaultClient
        [("all_on", PyValue.int 0, true), ("rgb", PyValue.int 160, true)]
        { now := 0, datagrams := [] }).2.1.datagrams.length = 0 + 2 ∧
    (runSimples defaultClient
        [("all_on", PyValue.int 0, true), ("rgb", PyValue.int 160, true)]
        { now := 0, datagrams := [] }).2.1.datagrams.map Prod.fst =
      paceTimes 0 2 ∧
    List.Chain' (fun a b => a + 100 ≤ b) (paceTimes 0 2) := by
  have h := c5_pacing defaultClient
    [("all_on", PyValue.int 0, true), ("rgb", PyValue.int 160, true)]
    { now := 0, datagrams := [] } (by
      intro o ho
      simp only [List.mem_cons, List.not_mem_nil, or_false] at ho
      rcases ho with rfl | rfl
      · exact ⟨rfl, [66, 0, 85], rfl⟩
      · exact ⟨rfl, [64, 160, 85], rfl⟩)
  simpa using h

/-- C6: `simple` has, for every input, exactly the outcome of composing
the packet builder with the sender: same trace (datagrams and pacing
clock) and same propagated error. -/
theorem c6_simple_is_compose (c : Client) (command : String) (value : PyValue)
    (sendtoOk : Bool) (t : Trace) :
    simple c command value sendtoOk t =
      composeBuildSend c command value sendtoOk t := by
  unfold simple composeBuildSend
  cases build_command c command value <;> rfl

/-- C7: round-trip of the encoding — a built packet decodes into its
(opcode, value, terminator) triple, the opcode maps back to the original
command name (the opcodes being pairwise distinct), and re-encoding under
that name yields the identical 3-byte sequence. -/
theorem c7_round_trip (c : Client) (name : String) (op : Nat) (v : Int)
    (h : commandsTable name = some op) (h0 : 0 ≤ v) (h1 : v ≤ 255) :
    build_command c name (.int v) = .ok [op, v.toNat, 85] ∧
    decodePacket [op, v.toNat, 85] = some (op, v.toNat, 85) ∧
    nameForOpcode op = some name ∧
    (∀ name2, nameForOpcode op = some name2 →
      build_command c name2 (.int v) = .ok [op, v.toNat, 85]) ∧
    (commandPairs.map Prod.snd).Nodup := by
  have hb := build_ok (c := c) h h0 h1
  have hn := nameForOpcode_of_table h
  refine ⟨hb, rfl, hn, ?_, opcodes_nodup⟩
  intro name2 h2
  rw [hn] at h2
  cases h2
  exact hb

/-- C7 witness: the round-trip at name "brightness" (opcode 78), value 27. -/
theorem c7_round_trip_witness :
    commandsTable "brightness" = some 78 ∧ (0 : Int) ≤ 27 ∧ (27 : Int) ≤ 255 ∧
    (build_command defaultClient "brightness" (.int 27) =
        .ok [78, (27 : Int).toNat, 85] ∧
      decodePacket [78, (27 : Int).toNat, 85] =
        some (78, (27 : Int).toNat, 85) ∧
      nameForOpcode 78 = some "brightness" ∧
      (∀ name2, nameForOpcode 78 = some name2 →
        build_command defaultClient name2 (.int 27) =
          .ok [78, (27 : Int).toNat, 85]) ∧
      (commandPairs.map Prod.snd).Nodup) :=
  ⟨rfl, by decide, by decide,
    c7_round_trip defaultClient "brightness" 78 27 rfl (by decide) (by decide)⟩

/-- C8: the packet builder is pure and deterministic — its result depends
only on the command name and value, not on the client instance — and no
sequence of operations changes the client: the bridge endpoint (and with
it everything the client holds) is identical after any run, while the
command table and terminator are constants of the embedding that no
operation can assign. -/
theorem c8_build_pure_client_immutable (c1 c2 : Client) (name : String)
    (v : PyValue) (ops : List (String × PyValue × Bool)) (t : Trace) :
    build_command c1 name v = build_command c2 name v ∧
    (runSimples c1 ops t).1 = c1 := by
  refine ⟨rfl, ?_⟩
  induction ops generalizing t with
  | nil => rfl
  | cons op ops ih =>
    simp only [runSimples]
    cases hs : simple c1 op.1 op.2.1 op.2.2 t with
    | mk t1 e =>
      cases e with
      | none => exact ih t1
      | some e => rfl

/-- C9: calling `simple` with a command name absent from the table fails
with the lookup's `KeyError` before any socket I/O: the trace — datagrams
sent and pacing clock — is exactly the one passed in. -/
theorem c9_unknown_no_effects (c : Client) (name : String) (v : PyValue)
    (b : Bool) (t : Trace) (h : commandsTable name = none) :
    simple c name v b t = (t, some PyError.keyError) := by
  simp [simple, build_command, h]

/-- C9 witness: the theorem at the unknown name of the spec's test
property, from the empty trace. -/
theorem c9_unknown_no_effects_witness :
    commandsTable "unknown_command_xyz" = none ∧
    simple defaultClient "unknown_command_xyz" (PyValue.int 0) true
        { now := 0, datagrams := [] } =
      ({ now := 0, datagrams := [] }, some PyError.keyError) :=
  ⟨rfl, c9_unknown_no_effects defaultClient "unknown_command_xyz"
    (PyValue.int 0) true { now := 0, datagrams := [] } rfl⟩

/-- C10: the value argument goes through Python's `int()` coercion — a
decimal numeric string behaves exactly as the integer it denotes, while a
non-numeric string fails the conversion (for a known command name) with
`ValueError`, before any packet byte is produced. -/
theorem c10_int_coercion (c : Client) (name : String) (s : String) :
    (∀ n : Int, pyParseInt s = some n →
      build_command c name (.str s) = build_command c name (.int n)) ∧
    (∀ op : Nat, commandsTable name = some op → pyParseInt s = none →
      build_command c name (.str s) = .error .valueError) := by
  constructor
  · intro n hn
    simp only [build_command, pyInt, hn]
  · intro op hop hn
    simp only [build_command, pyInt, hop, hn]

/-- C10 witness: the coercion at name "rgb" with the numeric string "160"
and the non-numeric string "orange". -/
theorem c10_int_coercion_witness :
    build_command defaultClient "rgb" (.str "160") =
      build_command defaultClient "rgb" (.int 160) ∧
    build_command defaultClient "rgb" (.str "orange") =
      .error .valueError :=
  ⟨(c10_int_coercion defaultClient "rgb" "160").1 160 (by decide),
   (c10_int_coercion defaultClient "rgb" "orange").2 64 rfl (by decide)⟩

end MiLight
